import Mathlib

/-!
Verification of `pyfastnbfit` (src/pyfastnbfit/pyfastnbfit.py).

The numerical core is shallowly embedded over `ℚ`.  External primitives
(numpy's `exp`/`log`, scipy's `digamma`, `trigamma`, and the root solvers
`optimize.newton` / `optimize.fsolve`) are collaborators outside the
repository; they are passed as explicit function parameters (oracles).
A solver that may raise is modelled as returning `Except String`.
Machine `inf` (Python's `np.inf`, used as the initial `a_old`) is modelled
as `none` in an `Option ℚ`.
-/

namespace Pyfastnbfit

/-- Mean as in `np.mean`: sum divided by length. -/
def mean (l : List ℚ) : ℚ := l.sum / l.length

/-- Variance as in `np.var`: population variance, mean of squared deviations. -/
def npvar (l : List ℚ) : ℚ := mean (l.map (fun x => (x - mean l) ^ 2))

/-- The loop guard `np.abs(a_old - a) > tol` where `a_old` may be `np.inf`
(modelled by `none`); for finite `a` and `tol`, `|inf - a| > tol` is true. -/
def absDiffGt (aOld : Option ℚ) (a tol : ℚ) : Bool :=
  match aOld with
  | none => true
  | some q => |q - a| > tol

/-! Section: `inv_digamma` (vector-style inverse digamma, scalar case) -/

/-- The initial guess of `inv_digamma` (`np.piecewise` on `x >= -2.22`),
with `gamma = -0.5772156649015329` as in the source. -/
def inv_digamma_init (qexp : ℚ → ℚ) (x : ℚ) : ℚ :=
  if x ≥ -2.22 then qexp x + 0.5 else -1 / (x + (-0.5772156649015329))

/-- The Newton sequence `x_{n+1} = x_n - (digamma(x_n) - x) / trigamma(x_n)`
iterated from `x0`. -/
def newtonSeq (ψ ψ' : ℚ → ℚ) (x x0 : ℚ) : ℕ → ℚ
  | 0 => x0
  | n + 1 =>
    let xo := newtonSeq ψ ψ' x x0 n
    xo - (ψ xo - x) / ψ' xo

/-- The `for i in range(max_iterations)` loop of `inv_digamma`:
`fuel` is the remaining budget, `i` the number of steps already taken. -/
def inv_digamma_loop (ψ ψ' : ℚ → ℚ) (x tol : ℚ) :
    ℕ → ℚ → ℕ → Except String (ℚ × ℕ)
  | 0, _, _ => .error "Failed to converge inv_digamma"
  | fuel + 1, xOld, i =>
    let xNew := xOld - (ψ xOld - x) / ψ' xOld
    if |xNew - xOld| < tol then .ok (xNew, i + 1)
    else inv_digamma_loop ψ ψ' x tol fuel xNew (i + 1)

/-- Function `inv_digamma(x, tol, max_iterations)` (scalar case; `LA.norm`
of a scalar is its absolute value). -/
def inv_digamma (qexp ψ ψ' : ℚ → ℚ) (x tol : ℚ) (maxIterations : ℕ) :
    Except String (ℚ × ℕ) :=
  inv_digamma_loop ψ ψ' x tol maxIterations (inv_digamma_init qexp x) 0

/-! Section: `_digammainv` (scalar inverse digamma used by the Gamma fitter) -/

/-- Euler–Mascheroni constant `_em` as written in the source. -/
def em : ℚ := 0.5772156649015328606065120

/-- The initial-guess (`x0`) selection of `_digammainv`:
`y > -0.125` gives `exp(y) + 0.5`; otherwise `y > -3` gives
`exp(y/2.332) + 0.08661`; otherwise `1 / (-y - _em)`. -/
def digammainv_x0 (qexp : ℚ → ℚ) (y : ℚ) : ℚ :=
  if y > -0.125 then qexp y + 0.5
  else if y > -3 then qexp (y / 2.332) + 0.08661
  else 1 / (-y - em)

/-- Function `_digammainv(y)`.  Here `newton y x0` models `optimize.newton` on
`digamma(x) - y` from `x0` (it raises on failure, hence `Except`);
`fsolve y x0` models `optimize.fsolve` with `full_output=True`,
returning `(value, ier)`.  In the source, `optimize.newton` is called
only when `y > -0.125` and `y < 10`, and its result is returned directly;
every other path runs `fsolve` and raises when `ier != 1`. -/
def digammainv (qexp : ℚ → ℚ) (newton : ℚ → ℚ → Except String ℚ)
    (fsolve : ℚ → ℚ → ℚ × Int) (y : ℚ) : Except String ℚ :=
  if y > -0.125 ∧ y < 10 then
    newton y (qexp y + 0.5)
  else
    let x0 := digammainv_x0 qexp y
    let r := fsolve y x0
    if r.2 ≠ 1 then .error ("_digammainv: fsolve failed, y = " ++ toString y)
    else .ok r.1

/-! Section: `fastfit_gamma` -/

/-- The initial shape estimate `a = 0.5 / s` of `fastfit_gamma`
(no guard, no clamping). -/
def gammaInit (s : ℚ) : ℚ := 0.5 / s

/-- Phase 1 of `fastfit_gamma`: the digamma-inversion fixed point
`while (np.abs(a_old - a) > tol) and (iteration < max_iterations)`
with body `a_old = a; a = _digammainv(log(a) - s); iteration += 1`.
`dgi` models the `_digammainv` call (it may raise).  `fuel` is
`max_iterations - iteration`.  Returns the final `(a_old, a, iteration)`. -/
def gammaPhase1 (dgi : ℚ → Except String ℚ) (qlog : ℚ → ℚ) (s tol : ℚ) :
    ℕ → Option ℚ → ℚ → ℕ → Except String (Option ℚ × ℚ × ℕ)
  | fuel, aOld, a, iteration =>
    if absDiffGt aOld a tol then
      match fuel with
      | 0 => .ok (aOld, a, iteration)
      | fuel + 1 => do
        let a' ← dgi (qlog a - s)
        gammaPhase1 dgi qlog s tol fuel (some a) a' (iteration + 1)
    else .ok (aOld, a, iteration)

/-- Phase 2 of `fastfit_gamma`: the Newton refinement
`a = 1 / (1/a + (log(a) - s - digamma(a)) / (a**2 * (1/a - trigamma(a))))`
under the same guard, with the counter reset to 0 and `a_old` carried over
from phase 1.  Returns the final `(a, iteration)`. -/
def gammaPhase2 (qlog ψ ψ' : ℚ → ℚ) (s tol : ℚ) :
    ℕ → Option ℚ → ℚ → ℕ → ℚ × ℕ
  | fuel, aOld, a, iteration =>
    if absDiffGt aOld a tol then
      match fuel with
      | 0 => (a, iteration)
      | fuel + 1 =>
        let num := qlog a - s - ψ a
        let denom := 1 / a - ψ' a
        let a' := 1 / (1 / a + num / (a ^ 2 * denom))
        gammaPhase2 qlog ψ ψ' s tol fuel (some a) a' (iteration + 1)
    else (a, iteration)

/-- Function `fastfit_gamma(observed, s, tol, max_iterations)`.  Here `dgi` models the
`_digammainv` collaborator, `qlog` models `np.log`, `ψ`/`ψ'` model
`digamma`/`trigamma`.  Returns `(a, b, iterations)` or propagates an
error raised inside `_digammainv`. -/
def fastfit_gamma (dgi : ℚ → Except String ℚ) (qlog ψ ψ' : ℚ → ℚ)
    (observed : List ℚ) (s? : Option ℚ) (tol : ℚ) (maxIterations : ℕ) :
    Except String (ℚ × ℚ × ℕ) := do
  let xbar := mean observed
  let logXbar := qlog xbar
  let barLogx := mean (observed.map qlog)
  let s := s?.getD (logXbar - barLogx)
  let a := gammaInit s
  let (aOld, a, _) ← gammaPhase1 dgi qlog s tol maxIterations none a 0
  let (a, iteration) := gammaPhase2 qlog ψ ψ' s tol maxIterations aOld a 0
  let b := xbar / a
  return (a, b, iteration)

/-! Section: `fastfit_negbin` -/

/-- The EM-style loop of `fastfit_negbin`:
`while (np.abs(a_old - a) > tol) and (iteration < max_iterations)` with body
`p = b/(b+1); obsa = observed + a; xmean = mean(obsa * p);
s = log(xmean) - mean(digamma(obsa) + log(p));
a, b, _ = fastfit_gamma(xmean, s, tol=tol)` (inner budget is the default 10). -/
def negbinLoop (dgi : ℚ → Except String ℚ) (qlog ψ ψ' : ℚ → ℚ)
    (observed : List ℚ) (tol : ℚ) :
    ℕ → Option ℚ → ℚ → ℚ → ℕ → Except String (ℚ × ℚ × ℕ)
  | fuel, aOld, a, b, iteration =>
    if absDiffGt aOld a tol then
      match fuel with
      | 0 => .ok (a, b, iteration)
      | fuel + 1 => do
        let p := b / (b + 1)
        let obsa := observed.map (· + a)
        let xmean := mean (obsa.map (· * p))
        let s := qlog xmean - mean (obsa.map (fun t => ψ t + qlog p))
        let (a', b', _) ← fastfit_gamma dgi qlog ψ ψ' [xmean] (some s) tol 10
        negbinLoop dgi qlog ψ ψ' observed tol fuel (some a) a' b' (iteration + 1)
    else .ok (a, b, iteration)

/-- Function `fastfit_negbin(observed, tol, max_iterations)`.  The returned Python
dict is modelled as an association list preserving the literal's key order:
`{"theta": a, "dispersion": 1/a, "mu": a*b, "iterations": iteration}`. -/
def fastfit_negbin (dgi : ℚ → Except String ℚ) (qlog ψ ψ' : ℚ → ℚ)
    (observed : List ℚ) (tol : ℚ) (maxIterations : ℕ) :
    Except String (List (String × ℚ)) := do
  let xmean := mean observed
  let xvar := npvar observed
  let b := xmean / xvar - 1
  let b := if b < 0 then 1e-3 else b
  let a := xmean / b
  let (a, b, iteration) ←
    negbinLoop dgi qlog ψ ψ' observed tol maxIterations none a b 0
  return [("theta", a), ("dispersion", 1 / a), ("mu", a * b),
          ("iterations", (iteration : ℚ))]

/-! Section: helper lemmas -/

/-- Mean of an elementwise product with a scalar is the scalar times the mean. -/
lemma mean_map_mul (l : List ℚ) (c : ℚ) :
    mean (l.map (· * c)) = c * mean l := by
  have hsum : (l.map (· * c)).sum = l.sum * c := by
    have := List.sum_map_mul_right l (fun t => t) c
    simpa using this
  simp only [mean, hsum, List.length_map]
  rw [mul_comm l.sum c, mul_div_assoc]

/-- Shifting the start of the Newton sequence by one step. -/
lemma newtonSeq_shift (ψ ψ' : ℚ → ℚ) (x x0 : ℚ) (n : ℕ) :
    newtonSeq ψ ψ' x (x0 - (ψ x0 - x) / ψ' x0) n = newtonSeq ψ ψ' x x0 (n + 1) := by
  induction n with
  | zero => simp [newtonSeq]
  | succ n ih => simp only [newtonSeq, ih]

/-- A bind of non-raising computations does not raise. -/
lemma isOk_bind {α β : Type} (e : Except String α) (k : α → Except String β)
    (he : e.isOk = true) (hk : ∀ r, (k r).isOk = true) :
    (e >>= k).isOk = true := by
  cases e with
  | error err => simp [Except.isOk, Except.toBool] at he
  | ok r => simpa [Except.bind] using hk r

/-- If the `_digammainv` oracle never raises, phase 1 never raises. -/
lemma gammaPhase1_isOk (dgi : ℚ → Except String ℚ) (qlog : ℚ → ℚ) (s tol : ℚ)
    (h : ∀ x, (dgi x).isOk = true) :
    ∀ fuel aOld a iteration,
      (gammaPhase1 dgi qlog s tol fuel aOld a iteration).isOk = true := by
  intro fuel
  induction fuel with
  | zero =>
    intro aOld a iteration
    rw [gammaPhase1]
    split <;> simp [Except.isOk, Except.toBool]
  | succ fuel ih =>
    intro aOld a iteration
    rw [gammaPhase1]
    split
    · have hx := h (qlog a - s)
      cases hdgi : dgi (qlog a - s) with
      | error e => rw [hdgi] at hx; simp [Except.isOk, Except.toBool] at hx
      | ok a' => simpa [hdgi] using ih (some a) a' (iteration + 1)
    · simp [Except.isOk, Except.toBool]

/-- If the `_digammainv` oracle never raises, `fastfit_gamma` never raises. -/
lemma fastfit_gamma_isOk (dgi : ℚ → Except String ℚ) (qlog ψ ψ' : ℚ → ℚ)
    (observed : List ℚ) (s? : Option ℚ) (tol : ℚ) (maxIterations : ℕ)
    (h : ∀ x, (dgi x).isOk = true) :
    (fastfit_gamma dgi qlog ψ ψ' observed s? tol maxIterations).isOk = true := by
  rw [fastfit_gamma]
  apply isOk_bind
  · exact gammaPhase1_isOk dgi qlog _ tol h maxIterations none _ 0
  · rintro ⟨aOld, a, c⟩
    simp [Except.isOk, Except.toBool, pure, Except.pure]

/-- If the `_digammainv` oracle never raises, the NegBin loop never raises. -/
lemma negbinLoop_isOk (dgi : ℚ → Except String ℚ) (qlog ψ ψ' : ℚ → ℚ)
    (observed : List ℚ) (tol : ℚ) (h : ∀ x, (dgi x).isOk = true) :
    ∀ fuel aOld a b iteration,
      (negbinLoop dgi qlog ψ ψ' observed tol fuel aOld a b iteration).isOk = true := by
  intro fuel
  induction fuel with
  | zero =>
    intro aOld a b iteration
    rw [negbinLoop]
    split <;> simp [Except.isOk, Except.toBool]
  | succ fuel ih =>
    intro aOld a b iteration
    rw [negbinLoop]
    split
    · apply isOk_bind
      · exact fastfit_gamma_isOk dgi qlog ψ ψ' _ _ tol 10 h
      · rintro ⟨a', b', c⟩
        exact ih (some a) a' b' (iteration + 1)
    · simp [Except.isOk, Except.toBool]

/-- If no step within the remaining budget meets the tolerance, the
`inv_digamma` loop raises. -/
lemma inv_digamma_loop_error (ψ ψ' : ℚ → ℚ) (x tol : ℚ) :
    ∀ fuel x0 i,
      (∀ k, k < fuel →
        ¬ |newtonSeq ψ ψ' x x0 (k + 1) - newtonSeq ψ ψ' x x0 k| < tol) →
      inv_digamma_loop ψ ψ' x tol fuel x0 i =
        .error "Failed to converge inv_digamma" := by
  intro fuel
  induction fuel with
  | zero => intro x0 i _; rfl
  | succ fuel ih =>
    intro x0 i h
    have h0 := h 0 (Nat.succ_pos fuel)
    simp only [newtonSeq] at h0
    rw [inv_digamma_loop]
    simp only [if_neg h0]
    apply ih
    intro k hk
    have := h (k + 1) (Nat.succ_lt_succ hk)
    rwa [newtonSeq_shift, newtonSeq_shift]

/-- If step `n` is the first one meeting the tolerance and `n` is within the
remaining budget, the `inv_digamma` loop returns `(x_{n+1}, i + n + 1)`. -/
lemma inv_digamma_loop_ok (ψ ψ' : ℚ → ℚ) (x tol : ℚ) :
    ∀ fuel x0 i n, n < fuel →
      |newtonSeq ψ ψ' x x0 (n + 1) - newtonSeq ψ ψ' x x0 n| < tol →
      (∀ k, k < n →
        ¬ |newtonSeq ψ ψ' x x0 (k + 1) - newtonSeq ψ ψ' x x0 k| < tol) →
      inv_digamma_loop ψ ψ' x tol fuel x0 i =
        .ok (newtonSeq ψ ψ' x x0 (n + 1), i + n + 1) := by
  intro fuel
  induction fuel with
  | zero => intro x0 i n hn _ _; exact absurd hn (Nat.not_lt_zero n)
  | succ fuel ih =>
    intro x0 i n hn hconv hmin
    cases n with
    | zero =>
      simp only [newtonSeq] at hconv
      rw [inv_digamma_loop]
      simp only [if_pos hconv]
      simp [newtonSeq]
    | succ m =>
      have h0 := hmin 0 (Nat.succ_pos m)
      simp only [newtonSeq] at h0
      rw [inv_digamma_loop]
      simp only [if_neg h0]
      have := ih (x0 - (ψ x0 - x) / ψ' x0) (i + 1) m (Nat.lt_of_succ_lt_succ hn)
        (by rw [newtonSeq_shift, newtonSeq_shift]; exact hconv)
        (fun k hk => by
          rw [newtonSeq_shift, newtonSeq_shift]
          exact hmin (k + 1) (Nat.succ_lt_succ hk))
      rw [this, newtonSeq_shift]
      congr 2
      omega

/-- C5: `inv_digamma` iterates the Newton update from the regime-selected
initializer; it returns `(x_{n+1}, n+1)` at the first step `n` whose
successive difference drops below `tol`, and raises exactly when no step
within the `max_iterations` budget meets the tolerance. -/
theorem inv_digamma_newton_contract (qexp ψ ψ' : ℚ → ℚ) (x tol : ℚ)
    (maxIterations : ℕ) :
    ((∀ k, k < maxIterations →
        ¬ |newtonSeq ψ ψ' x (inv_digamma_init qexp x) (k + 1) -
            newtonSeq ψ ψ' x (inv_digamma_init qexp x) k| < tol) →
      inv_digamma qexp ψ ψ' x tol maxIterations =
        .error "Failed to converge inv_digamma")
  ∧ (∀ n, n < maxIterations →
      |newtonSeq ψ ψ' x (inv_digamma_init qexp x) (n + 1) -
          newtonSeq ψ ψ' x (inv_digamma_init qexp x) n| < tol →
      (∀ k, k < n →
        ¬ |newtonSeq ψ ψ' x (inv_digamma_init qexp x) (k + 1) -
            newtonSeq ψ ψ' x (inv_digamma_init qexp x) k| < tol) →
      inv_digamma qexp ψ ψ' x tol maxIterations =
        .ok (newtonSeq ψ ψ' x (inv_digamma_init qexp x) (n + 1), n + 1)) := by
  constructor
  · intro h
    exact inv_digamma_loop_error ψ ψ' x tol maxIterations _ 0 h
  · intro n hn hconv hmin
    have := inv_digamma_loop_ok ψ ψ' x tol maxIterations
      (inv_digamma_init qexp x) 0 n hn hconv hmin
    simpa [inv_digamma] using this

/-- Witness for C5: with identity `digamma`, constant-one `trigamma`,
zero `exp` and target 5, tolerance 1, the first step has difference 4.5
and the second 0, so the call returns `(5, 2)`. -/
theorem inv_digamma_newton_contract_witness :
    inv_digamma (fun _ => (0 : ℚ)) (fun t => t) (fun _ => (1 : ℚ)) 5 1 10 =
      .ok (5, 2) := by
  have h := (inv_digamma_newton_contract (fun _ => (0 : ℚ)) (fun t => t)
    (fun _ => (1 : ℚ)) 5 1 10).2 1 (by norm_num)
    (by norm_num [newtonSeq, inv_digamma_init, abs])
    (by
      intro k hk
      have hk0 : k = 0 := by omega
      subst hk0
      norm_num [newtonSeq, inv_digamma_init, abs])
  simpa [newtonSeq, inv_digamma_init] using h

/-- C6: the `_digammainv` initial guess follows the three-regime rule on `y`:
upper regime (`y > -0.125`) gives `exp(y) + 0.5`; the middle band
`-3 < y < -2.22` gives `exp(y/2.332) + 0.08661`; and `y ≤ -3` gives
`1 / (-y - γ)` with `γ` the Euler–Mascheroni constant
`0.5772156649015328606065120`. -/
theorem digammainv_x0_regimes (qexp : ℚ → ℚ) (y : ℚ) :
    (y > -0.125 → digammainv_x0 qexp y = qexp y + 0.5)
  ∧ (-3 < y → y < -2.22 → digammainv_x0 qexp y = qexp (y / 2.332) + 0.08661)
  ∧ (y ≤ -3 → digammainv_x0 qexp y = 1 / (-y - em)) := by
  refine ⟨fun h => ?_, fun h1 h2 => ?_, fun h => ?_⟩
  · rw [digammainv_x0, if_pos h]
  · have hno : ¬ y > -0.125 := by
      rw [not_lt]
      calc y ≤ -2.22 := le_of_lt h2
        _ ≤ -0.125 := by norm_num
    rw [digammainv_x0, if_neg hno, if_pos h1]
  · have hno : ¬ y > -0.125 := by
      rw [not_lt]
      calc y ≤ -3 := h
        _ ≤ -0.125 := by norm_num
    have hno3 : ¬ y > -3 := not_lt.mpr h
    rw [digammainv_x0, if_neg hno, if_neg hno3]

/-- Witness for C6: at `y = -4` (lowest regime, with identity `exp`) the
initializer is `1 / (4 - γ)`. -/
theorem digammainv_x0_regimes_witness :
    digammainv_x0 (fun t => t) (-4) = 1 / (4 - em) := by
  have h := (digammainv_x0_regimes (fun t => t) (-4)).2.2 (by norm_num)
  rw [h]
  norm_num

/-- C7 counterexample: in the upper regime (`y = 0 > -0.125`, `y < 10`) a
Newton failure propagates directly as the result; no fallback to `fsolve`
happens even though the `fsolve` oracle would report success (`ier = 1`,
root 7). -/
theorem digammainv_no_fallback_counterexample :
    digammainv (fun _ => (0 : ℚ)) (fun _ _ => .error "newton failed")
      (fun _ _ => ((7 : ℚ), (1 : Int))) 0 = .error "newton failed" := by
  rw [digammainv, if_pos]
  norm_num

/-- C7 amended: a Newton failure in the upper regime with `y < 10` is
propagated as-is (the `fsolve` fallback is never consulted there); the
`fsolve` path runs exactly when `y ≤ -0.125` or `y ≥ 10`, and when it
reports `ier ≠ 1` the call raises a fatal error whose message includes the
offending target value `y`. -/
theorem digammainv_newton_propagates (qexp : ℚ → ℚ)
    (newton : ℚ → ℚ → Except String ℚ) (fsolve : ℚ → ℚ → ℚ × Int) (y : ℚ) :
    (y > -0.125 → y < 10 →
      digammainv qexp newton fsolve y = newton y (qexp y + 0.5))
  ∧ (¬ (y > -0.125 ∧ y < 10) → (fsolve y (digammainv_x0 qexp y)).2 ≠ 1 →
      digammainv qexp newton fsolve y =
        .error ("_digammainv: fsolve failed, y = " ++ toString y)) := by
  constructor
  · intro h1 h2
    rw [digammainv, if_pos ⟨h1, h2⟩]
  · intro hno hier
    rw [digammainv, if_neg hno]
    simp only [if_pos hier]

/-- Witness for C7 amended: at `y = 20` (outside the Newton band) an
`fsolve` report of `ier = 2` makes the call raise with the target value in
the message. -/
theorem digammainv_newton_propagates_witness :
    digammainv (fun _ => (0 : ℚ)) (fun _ _ => .ok 3)
      (fun _ _ => ((7 : ℚ), (2 : Int))) 20 =
      .error ("_digammainv: fsolve failed, y = " ++ toString (20 : ℚ)) :=
  (digammainv_newton_propagates (fun _ => (0 : ℚ)) (fun _ _ => .ok 3)
    (fun _ _ => ((7 : ℚ), (2 : Int))) 20).2 (by norm_num) (by norm_num)

/-- Reduction of a bind on a success value. -/
lemma ok_bind {α β : Type} (a : α) (f : α → Except String β) :
    (Except.ok a >>= f) = f a := rfl

/-- A success value is `isOk`. -/
lemma isOk_ok {α : Type} (a : α) : (Except.ok a : Except String α).isOk = true := rfl

/-- Reduction of `pure` to a success value. -/
lemma pure_ok {α : Type} (a : α) : (pure a : Except String α) = .ok a := rfl

/-- A bind that yields a success value factors through a success value. -/
lemma bind_eq_ok {α β : Type} {e : Except String α} {k : α → Except String β}
    {b : β} (h : (e >>= k) = .ok b) : ∃ a, e = .ok a ∧ k a = .ok b := by
  cases e with
  | error err => exact Except.noConfusion h
  | ok a => exact ⟨a, rfl, h⟩

/-- Phase 2 of `fastfit_gamma` performs no update when the entry state
already meets the tolerance. -/
lemma gammaPhase2_stop (qlog ψ ψ' : ℚ → ℚ) (s tol : ℚ) (fuel : ℕ)
    (aOld : Option ℚ) (a : ℚ) (iteration : ℕ)
    (h : absDiffGt aOld a tol = false) :
    gammaPhase2 qlog ψ ψ' s tol fuel aOld a iteration = (a, iteration) := by
  rw [gammaPhase2.eq_def]
  simp [h]

/-- C1 counterexample: with observations `[0, 2]`, tolerance `1/1000` and
budget 2, a log oracle `t ↦ t²` (so the derived statistic is `s = -1`) and a
`_digammainv` oracle returning its argument, the fixed-point phase exhausts
its budget with the last two estimates still `21/16` apart, yet
`fastfit_gamma` returns a result instead of raising any error. -/
theorem fastfit_gamma_nonconvergence_counterexample :
    mean ([0, 2] : List ℚ) * mean ([0, 2] : List ℚ) -
      mean (([0, 2] : List ℚ).map (fun t => t * t)) = -1
  ∧ gammaPhase1 (fun t => .ok t) (fun t => t * t) (-1) (1/1000) 2 none
      (gammaInit (-1)) 0 = .ok (some (5/4), 41/16, 2)
  ∧ absDiffGt (some (5/4)) (41/16) (1/1000) = true
  ∧ fastfit_gamma (fun t => .ok t) (fun t => t * t) (fun _ => 0) (fun _ => 0)
      [0, 2] none (1/1000) 2 = .ok (719304/5024417, 5024417/719304, 2) := by
  refine ⟨by norm_num [mean], ?_, by norm_num [absDiffGt, abs], ?_⟩
  · norm_num [gammaPhase1, gammaInit, absDiffGt, abs, ok_bind]
  · norm_num [fastfit_gamma, gammaPhase1, gammaPhase2, gammaInit, mean,
      absDiffGt, abs, ok_bind]

/-- C1 amended: exhausting either phase's iteration budget raises nothing.
Whatever state phase 1 ends in, `fastfit_gamma` returns the Newton phase's
last estimate as its result; the only possible failure is an error
propagated out of the inner `_digammainv` call. -/
theorem fastfit_gamma_returns_last_estimate (dgi : ℚ → Except String ℚ)
    (qlog ψ ψ' : ℚ → ℚ) (observed : List ℚ) (s? : Option ℚ) (tol : ℚ)
    (maxIterations : ℕ) (aOld : Option ℚ) (a1 : ℚ) (it1 : ℕ)
    (h1 : gammaPhase1 dgi qlog
        (s?.getD (qlog (mean observed) - mean (observed.map qlog))) tol
        maxIterations none
        (gammaInit (s?.getD (qlog (mean observed) - mean (observed.map qlog))))
        0 = .ok (aOld, a1, it1)) :
    fastfit_gamma dgi qlog ψ ψ' observed s? tol maxIterations =
      .ok ((gammaPhase2 qlog ψ ψ'
          (s?.getD (qlog (mean observed) - mean (observed.map qlog))) tol
          maxIterations aOld a1 0).1,
        mean observed / (gammaPhase2 qlog ψ ψ'
          (s?.getD (qlog (mean observed) - mean (observed.map qlog))) tol
          maxIterations aOld a1 0).1,
        (gammaPhase2 qlog ψ ψ'
          (s?.getD (qlog (mean observed) - mean (observed.map qlog))) tol
          maxIterations aOld a1 0).2) := by
  simp only [fastfit_gamma, h1, ok_bind, pure_ok]

/-- Witness for C1 amended: with budget 1 the fixed-point phase exhausts at
`(some (-1/2), 5/4, 1)` and the call still returns the Newton phase's last
estimate `(20/57, 57/20, 1)`. -/
theorem fastfit_gamma_returns_last_estimate_witness :
    fastfit_gamma (fun t => .ok t) (fun t => t * t) (fun _ => 0) (fun _ => 0)
      [0, 2] none (1/1000) 1 = .ok (20/57, 57/20, 1) := by
  have h := fastfit_gamma_returns_last_estimate (fun t => .ok t)
    (fun t => t * t) (fun _ => 0) (fun _ => 0) [0, 2] none (1/1000) 1
    (some (-1/2)) (5/4) 1
    (by norm_num [gammaPhase1, gammaInit, mean, absDiffGt, abs, ok_bind])
  rw [h]
  norm_num [gammaPhase2, mean, absDiffGt, abs]

/-- C10: the iteration count returned by `fastfit_gamma` comes from the
Newton phase alone, whose counter starts at zero; when phase 1 exits with
the successive difference already within tolerance, the Newton phase does
nothing and the returned count is 0 no matter how many fixed-point
iterations ran. -/
theorem fastfit_gamma_iterations_reset (dgi : ℚ → Except String ℚ)
    (qlog ψ ψ' : ℚ → ℚ) (observed : List ℚ) (s? : Option ℚ) (tol : ℚ)
    (maxIterations : ℕ) (aOld : Option ℚ) (a1 : ℚ) (it1 : ℕ)
    (h1 : gammaPhase1 dgi qlog
        (s?.getD (qlog (mean observed) - mean (observed.map qlog))) tol
        maxIterations none
        (gammaInit (s?.getD (qlog (mean observed) - mean (observed.map qlog))))
        0 = .ok (aOld, a1, it1))
    (h2 : absDiffGt aOld a1 tol = false) :
    fastfit_gamma dgi qlog ψ ψ' observed s? tol maxIterations =
      .ok (a1, mean observed / a1, 0) := by
  simp only [fastfit_gamma, h1, ok_bind, pure_ok,
    gammaPhase2_stop _ _ _ _ _ _ _ _ _ h2]

/-- Witness for C10: phase 1 runs 2 iterations before meeting the
tolerance (`it1 = 2`), yet the returned iteration count is 0. -/
theorem fastfit_gamma_iterations_reset_witness :
    fastfit_gamma (fun _ => .ok 1) (fun t => t) (fun t => t) (fun t => t)
      [5] (some 2) (1/100) 3 = .ok (1, 5, 0) := by
  have h := fastfit_gamma_iterations_reset (fun _ => .ok 1) (fun t => t)
    (fun t => t) (fun t => t) [5] (some 2) (1/100) 3 (some 1) 1 2
    (by norm_num [gammaPhase1, gammaInit, mean, absDiffGt, abs, ok_bind])
    (by norm_num [absDiffGt, abs])
  rw [h]
  norm_num [mean]

/-- C2 counterexample: with observations `[0, 2]` and log oracle `t ↦ t²`
the derived sufficient statistic is `s = -1 ≤ 0`, yet `fastfit_gamma`
(with a `_digammainv` oracle constantly `-1/2`) raises nothing and returns
the negative shape `-1/2` with scale `-2`. -/
theorem fastfit_gamma_s_nonpositive_counterexample :
    mean ([0, 2] : List ℚ) * mean ([0, 2] : List ℚ) -
      mean (([0, 2] : List ℚ).map (fun t => t * t)) = -1
  ∧ fastfit_gamma (fun _ => .ok (-1/2)) (fun t => t * t) (fun _ => 0)
      (fun _ => 0) [0, 2] none (1/1000) 2 = .ok (-1/2, -2, 0) := by
  constructor
  · norm_num [mean]
  · norm_num [fastfit_gamma, gammaPhase1, gammaPhase2, gammaInit, mean,
      absDiffGt, abs, ok_bind]

/-- C2 amended: `fastfit_gamma` has no guard on `s ≤ 0`: for `s < 0` the
initial estimate `a = 0.5 / s` is negative and used unchanged (no clamping),
and — as long as the inner `_digammainv` oracle does not itself raise — the
call returns normally instead of raising a fatal error. -/
theorem fastfit_gamma_no_s_guard (dgi : ℚ → Except String ℚ)
    (qlog ψ ψ' : ℚ → ℚ) (observed : List ℚ) (s tol : ℚ) (maxIterations : ℕ)
    (hs : s < 0) (h : ∀ x, (dgi x).isOk = true) :
    gammaInit s < 0 ∧
    (fastfit_gamma dgi qlog ψ ψ' observed (some s) tol maxIterations).isOk =
      true := by
  constructor
  · exact div_neg_of_pos_of_neg (by norm_num) hs
  · exact fastfit_gamma_isOk dgi qlog ψ ψ' observed (some s) tol maxIterations h

/-- Witness for C2 amended: at `s = -1` the initial estimate is negative and
the call returns successfully. -/
theorem fastfit_gamma_no_s_guard_witness :
    gammaInit (-1) < 0 ∧
    (fastfit_gamma (fun _ => .ok 1) (fun t => t) (fun _ => 0) (fun _ => 0)
      [1, 2] (some (-1)) (1/1000) 7).isOk = true :=
  fastfit_gamma_no_s_guard (fun _ => .ok 1) (fun t => t) (fun _ => 0)
    (fun _ => 0) [1, 2] (-1) (1/1000) 7 (by norm_num) (fun _ => rfl)

/-- C3 counterexample: the constant vector `[2, 2]` has zero sample
variance, yet `fastfit_negbin` raises no error at (or after) its
method-of-moments initialization: it returns a result record. -/
theorem fastfit_negbin_zero_variance_counterexample :
    npvar ([2, 2] : List ℚ) = 0
  ∧ fastfit_negbin (fun _ => .ok 1) (fun _ => 0) (fun _ => 0) (fun _ => 0)
      [2, 2] (1/10000) 0 =
      .ok [("theta", 2000), ("dispersion", 1/2000), ("mu", 2),
           ("iterations", 0)] := by
  constructor
  · norm_num [npvar, mean]
  · rw [fastfit_negbin.eq_def]
    norm_num [negbinLoop, npvar, mean, absDiffGt, ok_bind, pure_ok]

/-- C3 amended: zero sample variance triggers no `DomainViolation`: the
moment initialization divides by the zero variance silently and, as long as
the inner `_digammainv` oracle does not raise, `fastfit_negbin` returns a
result record for any budget. -/
theorem fastfit_negbin_no_variance_guard (dgi : ℚ → Except String ℚ)
    (qlog ψ ψ' : ℚ → ℚ) (observed : List ℚ) (tol : ℚ) (maxIterations : ℕ)
    (hvar : npvar observed = 0) (h : ∀ x, (dgi x).isOk = true) :
    (fastfit_negbin dgi qlog ψ ψ' observed tol maxIterations).isOk = true := by
  rw [fastfit_negbin]
  apply isOk_bind
  · exact negbinLoop_isOk dgi qlog ψ ψ' observed tol h maxIterations none _ _ 0
  · rintro ⟨a, b, c⟩
    exact isOk_ok _

/-- Witness for C3 amended: the constant vector `[3, 3, 3]` has zero
variance and the fit still reports success with the default-style budget. -/
theorem fastfit_negbin_no_variance_guard_witness :
    npvar ([3, 3, 3] : List ℚ) = 0 ∧
    (fastfit_negbin (fun _ => .ok 1) (fun _ => 0) (fun _ => 0) (fun _ => 0)
      [3, 3, 3] (1/10000) 100).isOk = true :=
  ⟨by norm_num [npvar, mean],
    fastfit_negbin_no_variance_guard (fun _ => .ok 1) (fun _ => 0)
      (fun _ => 0) (fun _ => 0) [3, 3, 3] (1/10000) 100
      (by norm_num [npvar, mean]) (fun _ => rfl)⟩

/-- C4 counterexample: a successful `fastfit_negbin` result record has keys
`theta`, `dispersion`, `mu`, `iterations` only — it contains neither the
scale-like parameter `b` nor the success probability `p` claimed. -/
theorem fastfit_negbin_record_counterexample :
    fastfit_negbin (fun _ => .ok 1) (fun t => t) (fun _ => 0) (fun _ => 0)
      [0, 1, 2, 3] (1/1000) 0 =
      .ok [("theta", 15/2), ("dispersion", 2/15), ("mu", 3/2),
           ("iterations", 0)]
  ∧ ([("theta", (15:ℚ)/2), ("dispersion", 2/15), ("mu", 3/2),
      ("iterations", 0)].lookup "b" = none)
  ∧ ([("theta", (15:ℚ)/2), ("dispersion", 2/15), ("mu", 3/2),
      ("iterations", 0)].lookup "p" = none) := by
  refine ⟨?_, by decide, by decide⟩
  rw [fastfit_negbin.eq_def]
  norm_num [negbinLoop, npvar, mean, absDiffGt, ok_bind, pure_ok]

/-- C4 amended: every successful `fastfit_negbin` call returns the record
`{"theta": a, "dispersion": 1/a, "mu": a*b, "iterations": n}` (in that key
order) for the fitted values; the record carries no `b` and no `p` entry,
and it is built once, directly before being returned. -/
theorem fastfit_negbin_record_schema (dgi : ℚ → Except String ℚ)
    (qlog ψ ψ' : ℚ → ℚ) (observed : List ℚ) (tol : ℚ) (maxIterations : ℕ)
    (l : List (String × ℚ))
    (h : fastfit_negbin dgi qlog ψ ψ' observed tol maxIterations = .ok l) :
    l.map Prod.fst = ["theta", "dispersion", "mu", "iterations"]
  ∧ (∃ a b n, l = [("theta", a), ("dispersion", 1 / a), ("mu", a * b),
        ("iterations", (n : ℚ))])
  ∧ l.lookup "b" = none ∧ l.lookup "p" = none := by
  rw [fastfit_negbin] at h
  obtain ⟨⟨a, b, n⟩, -, hk⟩ := bind_eq_ok h
  have hl : l = [("theta", a), ("dispersion", 1 / a), ("mu", a * b),
      ("iterations", (n : ℚ))] := by
    have hk2 := hk
    simp only [pure, Except.pure, Except.ok.injEq] at hk2
    exact hk2.symm
  subst hl
  refine ⟨by simp, ⟨a, b, n, rfl⟩, by simp [List.lookup], by simp [List.lookup]⟩

/-- Witness for C4 amended: the concrete successful fit of `[1, 3]` with
budget 0 produces the four-field record with no `b` or `p` entry. -/
theorem fastfit_negbin_record_schema_witness :
    ([("theta", (2:ℚ)), ("dispersion", 1/2), ("mu", 2),
        ("iterations", 0)].map Prod.fst =
      ["theta", "dispersion", "mu", "iterations"])
  ∧ (∃ a b n, [("theta", (2:ℚ)), ("dispersion", 1/2), ("mu", 2),
        ("iterations", 0)] = [("theta", a), ("dispersion", 1 / a),
        ("mu", a * b), ("iterations", (n : ℚ))])
  ∧ ([("theta", (2:ℚ)), ("dispersion", 1/2), ("mu", 2),
      ("iterations", 0)].lookup "b" = none)
  ∧ ([("theta", (2:ℚ)), ("dispersion", 1/2), ("mu", 2),
      ("iterations", 0)].lookup "p" = none) := by
  have h := fastfit_negbin_record_schema (fun _ => .ok 1) (fun t => t)
    (fun _ => 0) (fun _ => 0) [1, 3] (1/1000) 0
    [("theta", (2:ℚ)), ("dispersion", 1/2), ("mu", 2), ("iterations", 0)]
    (by
      rw [fastfit_negbin.eq_def]
      norm_num [negbinLoop, npvar, mean, absDiffGt, ok_bind, pure_ok])
  exact h

/-- C8: each EM iteration of `fastfit_negbin` computes `p = b/(b+1)`, takes
`xmean` as the `p`-weighted mean of the augmented values `observed + a`,
forms `s = log(xmean) - mean(digamma(observed + a) + log(p))`, updates
`(a, b)` through `fastfit_gamma` on mean `xmean` and statistic `s` (inner
budget 10), and the loop stops as soon as the successive shape estimates
differ by at most `tol` or the budget runs out. -/
theorem negbinLoop_body (dgi : ℚ → Except String ℚ) (qlog ψ ψ' : ℚ → ℚ)
    (observed : List ℚ) (tol : ℚ) (fuel : ℕ) (aOld : Option ℚ) (a b : ℚ)
    (iteration : ℕ) :
    (absDiffGt aOld a tol = false →
      negbinLoop dgi qlog ψ ψ' observed tol fuel aOld a b iteration =
        .ok (a, b, iteration))
  ∧ (absDiffGt aOld a tol = true →
      negbinLoop dgi qlog ψ ψ' observed tol 0 aOld a b iteration =
        .ok (a, b, iteration))
  ∧ (absDiffGt aOld a tol = true →
      negbinLoop dgi qlog ψ ψ' observed tol (fuel + 1) aOld a b iteration =
        fastfit_gamma dgi qlog ψ ψ'
            [b / (b + 1) * mean (observed.map (· + a))]
            (some (qlog (b / (b + 1) * mean (observed.map (· + a))) -
              mean (observed.map (fun t => ψ (t + a) + qlog (b / (b + 1))))))
            tol 10 >>= fun r =>
          negbinLoop dgi qlog ψ ψ' observed tol fuel (some a) r.1 r.2.1
            (iteration + 1)) := by
  refine ⟨fun h => ?_, fun h => ?_, fun h => ?_⟩
  · rw [negbinLoop.eq_def]
    simp [h]
  · rw [negbinLoop.eq_def]
    simp [h]
  · rw [negbinLoop.eq_def]
    simp only [h, if_true]
    rw [mean_map_mul]
    rw [List.map_map]
    simp only [Function.comp_def]

/-- Witness for C8: a loop state whose successive estimates already agree
within tolerance returns unchanged. -/
theorem negbinLoop_body_witness :
    negbinLoop (fun _ => .ok 1) (fun t => t) (fun _ => 0) (fun _ => 0)
      [1] (1/10) 5 (some 1) 1 2 3 = .ok (1, 2, 3) :=
  (negbinLoop_body (fun _ => .ok 1) (fun t => t) (fun _ => 0) (fun _ => 0)
    [1] (1/10) 5 (some 1) 1 2 3).1 (by norm_num [absDiffGt, abs])

end Pyfastnbfit
